import Mathlib

/-!
Shallow embedding of the task-management shortcourse repository: the
validation module (validation.js), the advanced Task entity
(enhanced-task-model.js), the advanced task repository
(task-repository.js), and the simplified EnhancedTask model and
TaskRepository from the step-by-step guide.

Modelling conventions:
* JS strings are Lean `String`s; `null`/`undefined` is `Option.none`.
* Timestamps (`Date` values) are `Nat` milliseconds; every call to
  `new Date()` inside a method becomes an explicit `now : Nat` parameter.
* JS numbers are `Rat`; the only falsy number that matters here is 0.
* Methods that `throw` return `Except String _`.
-/

namespace TaskApp

/-- Decidable equality for `Except`, so concrete runs of the throwing
operations can be checked by `decide`. -/
instance {ε α : Type} [DecidableEq ε] [DecidableEq α] :
    DecidableEq (Except ε α) := fun a b =>
  match a, b with
  | .error e, .error f =>
    if h : e = f then isTrue (by subst h; rfl)
    else isFalse (fun hc => h (by injection hc))
  | .ok x, .ok y =>
    if h : x = y then isTrue (by subst h; rfl)
    else isFalse (fun hc => h (by injection hc))
  | .error _, .ok _ => isFalse (fun hc => Except.noConfusion hc)
  | .ok _, .error _ => isFalse (fun hc => Except.noConfusion hc)

/-- JS `v || d` for an optional string (`undefined`, `null` and `""` are falsy). -/
def jsOr (v : Option String) (d : String) : String :=
  match v with
  | none => d
  | some s => if s = "" then d else s

/-- JS `v || null` for an optional string. -/
def jsOrNullStr (v : Option String) : Option String :=
  match v with
  | none => none
  | some s => if s = "" then none else some s

/-- JS `v || null` for an optional number (0 is falsy). -/
def jsOrNullRat (v : Option Rat) : Option Rat :=
  match v with
  | none => none
  | some h => if h = 0 then none else some h

/-- JS `v ? f(v) : null` for an optional timestamp (the timestamp 0 is falsy). -/
def jsTruthyNat (v : Option Nat) : Option Nat :=
  match v with
  | none => none
  | some n => if n = 0 then none else some n

/-! ## JS string primitives

Kernel-reducible models of the JS string methods the source uses
(`trim`, `toLowerCase`, and `replace` with a global single-character
pattern), defined by structural recursion on the character list. -/

/-- The apostrophe character (U+0027). -/
def apos : Char := Char.ofNat 39

/-- Whitespace recognised by JS `String.prototype.trim`. -/
def isJsSpace (c : Char) : Bool :=
  c == ' ' || c == '\t' || c == '\n' || c == '\r' || c == '\x0b' || c == '\x0c'

/-- JS `s.trim()`. -/
def jsTrim (s : String) : String :=
  ⟨((s.data.dropWhile isJsSpace).reverse.dropWhile isJsSpace).reverse⟩

/-- ASCII lower-casing of one character. -/
def jsLowerChar (c : Char) : Char :=
  if 'A' ≤ c && c ≤ 'Z' then Char.ofNat (c.toNat + 32) else c

/-- JS `s.toLowerCase()` (ASCII fragment). -/
def jsToLower (s : String) : String :=
  ⟨s.data.map jsLowerChar⟩

/-- Replace every occurrence of the character `c` by the string `r`. -/
def jsReplaceAll (c : Char) (r : List Char) : List Char → List Char
  | [] => []
  | a :: rest =>
    if a == c then r ++ jsReplaceAll c r rest else a :: jsReplaceAll c r rest

/-! ## validation.js -/

/-- Result shape returned by the string field validation strategies;
`sanitizedValue` is `none` on the paths where the source object literal
omits the `sanitizedValue` key. -/
structure VResult where
  isValid : Bool
  errors : List String
  sanitizedValue : Option String
deriving Repr, DecidableEq

/-- Result shape of `DueDateValidationStrategy.validate` (its
`sanitizedValue` is the original date value, not a string). -/
structure DVResult where
  isValid : Bool
  errors : List String
  sanitizedValue : Option Nat
deriving Repr, DecidableEq

/-- Model of `TitleValidationStrategy.sanitize` / `DescriptionValidationStrategy.sanitize`,
exactly as written in the source: the replacement targets for the
less-than, greater-than and double-quote characters are those same
characters, so only `&` and the apostrophe are actually rewritten. -/
def sanitize (text : String) : String :=
  ⟨jsReplaceAll apos "&#x27;".data
    (jsReplaceAll '"' "\"".data
      (jsReplaceAll '>' ">".data
        (jsReplaceAll '<' "<".data
          (jsReplaceAll '&' "&amp;".data text.data))))⟩

/-- Helper for the regex test `/<[^>]*>/`: scans for a `<` that is
followed (anywhere later) by a `>`, which is exactly when the regex has
a match. -/
def hasTagFrom : List Char → Bool
  | [] => false
  | c :: rest => (c == '<' && rest.contains '>') || hasTagFrom rest

/-- Test of the regex `/<[^>]*>/g` from the source. -/
def hasHtmlTag (s : String) : Bool :=
  hasTagFrom s.data

/-- Model of `TitleValidationStrategy.validate` with the default bounds
`minLength = 1`, `maxLength = 100` used by `TaskValidator`.  The input
`none` stands for JS `null`/`undefined`. -/
def titleValidate (title : Option String) : VResult :=
  match title with
  | none => ⟨false, ["Title is required"], none⟩
  | some s =>
    if s = "" then ⟨false, ["Title is required"], none⟩
    else
      let trimmed := jsTrim s
      let e1 := if trimmed.length = 0 then
        ["Title cannot be empty or only whitespace"] else []
      let e2 := if trimmed.length < 1 then
        ["Title must be at least 1 character(s)"] else []
      let e3 := if trimmed.length > 100 then
        ["Title must be no more than 100 characters"] else []
      let e4 := if hasHtmlTag trimmed then
        ["Title cannot contain HTML tags"] else []
      let errors := e1 ++ e2 ++ e3 ++ e4
      ⟨errors.isEmpty, errors, some (sanitize trimmed)⟩

/-- Model of `DescriptionValidationStrategy.validate` with the default
`maxLength = 500`. -/
def descriptionValidate (description : Option String) : VResult :=
  match description with
  | none => ⟨true, [], some ""⟩
  | some s =>
    if s = "" then ⟨true, [], some ""⟩
    else
      let trimmed := jsTrim s
      let e1 := if trimmed.length > 500 then
        ["Description must be no more than 500 characters"] else []
      let e2 := if hasHtmlTag trimmed then
        ["Description cannot contain HTML tags"] else []
      let errors := e1 ++ e2
      ⟨errors.isEmpty, errors, some (sanitize trimmed)⟩

/-- The `valid` list of `PriorityValidationStrategy` in validation.js
(note: it does not contain `urgent`). -/
def strategyPriorities : List String := ["high", "medium", "low"]

/-- Model of `PriorityValidationStrategy.validate`. -/
def priorityValidate (priority : Option String) : VResult :=
  match priority with
  | none => ⟨true, [], some "medium"⟩
  | some s =>
    if s = "" then ⟨true, [], some "medium"⟩
    else
      let normalized := jsToLower (jsTrim s)
      if strategyPriorities.contains normalized then
        ⟨true, [], some normalized⟩
      else
        ⟨false, ["Priority must be one of: high, medium, low"], none⟩

/-- Model of `DueDateValidationStrategy.validate`; `today` is the start-of-day
timestamp computed by the source via `setHours(0,0,0,0)`.  Date strings
that fail to parse are not representable in the `Nat` timestamp model. -/
def dueDateValidate (dueDate : Option Nat) (today : Nat) : DVResult :=
  match dueDate with
  | none => ⟨true, [], none⟩
  | some d =>
    if d = 0 then ⟨true, [], none⟩
    else if d < today then
      ⟨false, ["Due date must be today or in the future"], none⟩
    else ⟨true, [], some d⟩

/-- A candidate object passed to `TaskValidator.validateTask`: for each
field, outer `none` means the key is absent from the object; a present
key holds a possibly-null value. -/
structure Candidate where
  title : Option (Option String) := none
  description : Option (Option String) := none
  priority : Option (Option String) := none
  dueDate : Option (Option Nat) := none
deriving Repr, DecidableEq

/-- The `fieldResults` object built by `validateTask`; `none` means the
key was never assigned. -/
structure FieldResults where
  title : Option VResult := none
  description : Option VResult := none
  priority : Option VResult := none
  dueDate : Option DVResult := none
deriving Repr, DecidableEq

/-- The `sanitizedData` object built by `validateTask`; for the string
fields `none` means the key was never assigned. -/
structure SanitizedData where
  title : Option String := none
  description : Option String := none
  priority : Option String := none
  dueDate : Option Nat := none
deriving Repr, DecidableEq

/-- Return shape of `TaskValidator.validateTask`. -/
structure ValidateOutcome where
  isValid : Bool
  errors : List String
  fieldResults : FieldResults
  sanitizedData : SanitizedData
deriving Repr, DecidableEq

/-- Model of `TaskValidator.validateTask`.  Note that the title strategy runs
unconditionally (reading `task.title`, which is `undefined` when the key
is absent), while the description/priority/dueDate strategies run only
under an `'field' in task` presence check. -/
def validateTask (c : Candidate) (today : Nat) : ValidateOutcome :=
  let tr := titleValidate (match c.title with | none => none | some v => v)
  let e1 : List String :=
    if tr.isValid then [] else tr.errors.map (fun e => "title: " ++ e)
  let sTitle : Option String := if tr.isValid then tr.sanitizedValue else none
  let dres : Option VResult :=
    match c.description with
    | none => none
    | some v => some (descriptionValidate v)
  let e2 : List String :=
    match dres with
    | none => []
    | some r =>
      if r.isValid then [] else r.errors.map (fun e => "description: " ++ e)
  let sDesc : Option String :=
    match dres with
    | none => some ""
    | some r => if r.isValid then r.sanitizedValue else none
  let pres : Option VResult :=
    match c.priority with
    | none => none
    | some v => some (priorityValidate v)
  let e3 : List String :=
    match pres with
    | none => []
    | some r =>
      if r.isValid then [] else r.errors.map (fun e => "priority: " ++ e)
  let sPrio : Option String :=
    match pres with
    | none => some "medium"
    | some r => if r.isValid then r.sanitizedValue else none
  let dures : Option DVResult :=
    match c.dueDate with
    | none => none
    | some v => some (dueDateValidate v today)
  let e4 : List String :=
    match dures with
    | none => []
    | some r =>
      if r.isValid then [] else r.errors.map (fun e => "dueDate: " ++ e)
  let sDue : Option Nat :=
    match dures with
    | none => none
    | some r => if r.isValid then r.sanitizedValue else none
  let errors := e1 ++ e2 ++ e3 ++ e4
  { isValid := errors.isEmpty
    errors := errors
    fieldResults :=
      { title := some tr, description := dres, priority := pres, dueDate := dures }
    sanitizedData :=
      { title := sTitle, description := sDesc, priority := sPrio, dueDate := sDue } }

/-- Model of `TaskValidator.validateTaskUpdate`: spreads the updates into a fresh
object and delegates to `validateTask`. -/
def validateTaskUpdate (updates : Candidate) (today : Nat) : ValidateOutcome :=
  validateTask updates today

/-! ## enhanced-task-model.js -/

/-- A note record built by `Task.addNote`. -/
structure Note where
  id : String
  content : String
  author : String
  createdAt : Nat
deriving Repr, DecidableEq

/-- The advanced Task entity.  `_tags`, `_notes` and `_dependencies` are
the private backing arrays; the corresponding getters return fresh
copies (see the heap model below for the aliasing-sensitive facts). -/
structure Task where
  id : String
  title : String
  description : String
  userId : String
  assignedTo : String
  completed : Bool
  status : String
  completedAt : Option Nat
  priority : String
  category : String
  createdAt : Nat
  updatedAt : Nat
  dueDate : Option Nat
  estimatedHours : Option Rat
  actualHours : Option Rat
  _tags : List String
  _notes : List Note
  _dependencies : List String
  projectId : Option String
  parentTaskId : Option String
  recurrence : Option String
deriving Repr, DecidableEq

/-- The options object accepted by the Task constructor. -/
structure TaskOptions where
  assignedTo : Option String := none
  priority : Option String := none
  category : Option String := none
  dueDate : Option Nat := none
  estimatedHours : Option Rat := none
  actualHours : Option Rat := none
  projectId : Option String := none
  parentTaskId : Option String := none
  recurrence : Option String := none
deriving Repr, DecidableEq

/-- The `validPriorities` list of `Task.validatePriority` in
enhanced-task-model.js (it does contain `urgent`). -/
def validPriorities : List String := ["low", "medium", "high", "urgent"]

/-- Model of `Task.validatePriority`: throws on values outside the enum. -/
def validatePriorityT (priority : String) : Except String String :=
  if validPriorities.contains priority then .ok priority
  else .error "Invalid priority"

/-- Model of `Task.normalizeCategory`. -/
def normalizeCategory (category : String) : String :=
  jsToLower (jsTrim (if category = "" then "general" else category))

/-- The `validStatuses` list of `Task.setStatus`. -/
def validStatuses : List String :=
  ["pending", "in-progress", "completed", "cancelled", "on-hold"]

/-- The Task constructor; `now` stands for the `new Date()` calls and
`freshId` for `generateId()`. -/
def taskNew (title : String) (description : String) (userId : String)
    (options : TaskOptions) (now : Nat) (freshId : String) :
    Except String Task :=
  if jsTrim title = "" then .error "Task title is required"
  else if jsTrim userId = "" then .error "User ID is required"
  else
    match validatePriorityT (jsOr options.priority "medium") with
    | .error e => .error e
    | .ok priority =>
    .ok { id := freshId
          title := jsTrim title
          description := jsTrim description
          userId := jsTrim userId
          assignedTo := jsOr options.assignedTo userId
          completed := false
          status := "pending"
          completedAt := none
          priority := priority
          category := normalizeCategory (jsOr options.category "general")
          createdAt := now
          updatedAt := now
          dueDate := jsTruthyNat options.dueDate
          estimatedHours := jsOrNullRat options.estimatedHours
          actualHours := jsOrNullRat options.actualHours
          _tags := []
          _notes := []
          _dependencies := []
          projectId := jsOrNullStr options.projectId
          parentTaskId := jsOrNullStr options.parentTaskId
          recurrence := jsOrNullStr options.recurrence }

/-- Model of `Task.updateTitle`. -/
def updateTitle (t : Task) (newTitle : String) (now : Nat) :
    Except String Task :=
  if jsTrim newTitle = "" then .error "Task title cannot be empty"
  else .ok { t with title := jsTrim newTitle, updatedAt := now }

/-- Model of `Task.updateDescription`. -/
def updateDescription (t : Task) (newDescription : String) (now : Nat) : Task :=
  { t with description := jsTrim newDescription, updatedAt := now }

/-- Model of `Task.updatePriority`. -/
def updatePriority (t : Task) (newPriority : String) (now : Nat) :
    Except String Task :=
  match validatePriorityT newPriority with
  | .error e => .error e
  | .ok p => .ok { t with priority := p, updatedAt := now }

/-- Model of `Task.markComplete`. -/
def markComplete (t : Task) (now : Nat) : Task :=
  if !t.completed then
    { t with completed := true, status := "completed",
             completedAt := some now, updatedAt := now }
  else t

/-- Model of `Task.markIncomplete`. -/
def markIncomplete (t : Task) (now : Nat) : Task :=
  if t.completed then
    { t with completed := false, status := "pending",
             completedAt := none, updatedAt := now }
  else t

/-- Model of `Task.assignTo`. -/
def assignTo (t : Task) (userId : String) (now : Nat) : Except String Task :=
  if jsTrim userId = "" then .error "Valid user ID is required"
  else .ok { t with assignedTo := jsTrim userId, updatedAt := now }

/-- Model of `Task.reassignToOwner`. -/
def reassignToOwner (t : Task) (now : Nat) : Task :=
  { t with assignedTo := t.userId, updatedAt := now }

/-- Model of `Task.setCategory`. -/
def setCategory (t : Task) (category : String) (now : Nat) :
    Except String Task :=
  if jsTrim category = "" then .error "Category must be a non-empty string"
  else .ok { t with category := normalizeCategory category, updatedAt := now }

/-- Model of `Task.addTag` (operates directly on `this._tags`). -/
def addTag (t : Task) (tag : String) (now : Nat) : Except String Task :=
  if jsTrim tag = "" then .error "Tag must be a non-empty string"
  else
    let normalizedTag := jsToLower (jsTrim tag)
    if t._tags.contains normalizedTag then .ok t
    else .ok { t with _tags := t._tags ++ [normalizedTag], updatedAt := now }

/-- Model of `Task.removeTag` (indexOf + splice on `this._tags`: removes the
first occurrence). -/
def removeTag (t : Task) (tag : String) (now : Nat) : Task :=
  let normalizedTag := jsToLower (jsTrim tag)
  if t._tags.contains normalizedTag then
    { t with _tags := t._tags.erase normalizedTag, updatedAt := now }
  else t

/-- Model of `Task.clearTags`. -/
def clearTags (t : Task) (now : Nat) : Task :=
  { t with _tags := [], updatedAt := now }

/-- Model of `Task.hasTag`. -/
def hasTag (t : Task) (tag : String) : Bool :=
  t._tags.contains (jsToLower (jsTrim tag))

/-- Model of `Task.setDueDate`.  `if (dueDate)`: null/undefined and the falsy
timestamp 0 clear the field; the `isNaN` throw has no counterpart since
`Nat` timestamps always parse. -/
def setDueDate (t : Task) (dueDate : Option Nat) (now : Nat) : Task :=
  { t with dueDate := jsTruthyNat dueDate, updatedAt := now }

/-- Model of `Task.clearDueDate`. -/
def clearDueDate (t : Task) (now : Nat) : Task :=
  { t with dueDate := none, updatedAt := now }

/-- Model of `Task.setEstimatedHours`. -/
def setEstimatedHours (t : Task) (hours : Option Rat) (now : Nat) :
    Except String Task :=
  match hours with
  | some h =>
    if h < 0 then .error "Hours must be a positive number"
    else .ok { t with estimatedHours := some h, updatedAt := now }
  | none => .ok { t with estimatedHours := none, updatedAt := now }

/-- Model of `Task.setActualHours`. -/
def setActualHours (t : Task) (hours : Option Rat) (now : Nat) :
    Except String Task :=
  match hours with
  | some h =>
    if h < 0 then .error "Hours must be a positive number"
    else .ok { t with actualHours := some h, updatedAt := now }
  | none => .ok { t with actualHours := none, updatedAt := now }

/-- Model of `Task.addTimeSpent` (`this.actualHours = (this.actualHours || 0) + hours`). -/
def addTimeSpent (t : Task) (hours : Rat) (now : Nat) : Except String Task :=
  if hours < 0 then .error "Hours must be a positive number"
  else .ok { t with actualHours := some (t.actualHours.getD 0 + hours),
                    updatedAt := now }

/-- Model of `Task.setStatus`: assigns the status, then re-syncs the completion
flags through `markComplete`/`markIncomplete`, then bumps `updatedAt`. -/
def setStatus (t : Task) (status : String) (now : Nat) : Except String Task :=
  if !validStatuses.contains status then .error "Invalid status"
  else
    let t1 := { t with status := status }
    let t2 :=
      if status == "completed" && !t1.completed then markComplete t1 now
      else if status != "completed" && t1.completed then markIncomplete t1 now
      else t1
    .ok { t2 with updatedAt := now }

/-- Model of `Task.addNote`.  The source pushes the new note onto
`this.notes`, i.e. onto the fresh copy returned by the `notes` getter
(`return [...this._notes]`), so `_notes` itself is unchanged and only
`updatedAt` moves. -/
def addNote (t : Task) (content : String) (author : String) (now : Nat)
    (freshNoteId : String) : Except String Task :=
  if jsTrim content = "" then .error "Note must be a non-empty string"
  else
    let note : Note :=
      { id := freshNoteId, content := jsTrim content,
        author := author, createdAt := now }
    let _pushedOntoCopy := t._notes ++ [note]
    .ok { t with updatedAt := now }

/-- Model of `Task.removeNote`: `findIndex` over the getter's copy, then a
`splice` that also hits a fresh copy, so only `updatedAt` changes when
the note is found. -/
def removeNote (t : Task) (noteId : String) (now : Nat) : Task :=
  if (t._notes.findIdx? (fun note => note.id == noteId)).isSome then
    { t with updatedAt := now }
  else t

/-- Model of `Task.addDependency`.  The self-dependency check throws first; the
recording `push` targets the fresh copy returned by the `dependencies`
getter (`return [...this._dependencies]`), so `_dependencies` itself is
unchanged and only `updatedAt` moves (see `addDependencyH` for the
heap-level derivation of this fact). -/
def addDependency (t : Task) (taskId : String) (now : Nat) :
    Except String Task :=
  if taskId = t.id then .error "Task cannot depend on itself"
  else if t._dependencies.contains taskId then .ok t
  else
    let _pushedOntoCopy := t._dependencies ++ [taskId]
    .ok { t with updatedAt := now }

/-- Model of `Task.removeDependency`: indexOf over the getter's copy, splice on a
fresh copy — only `updatedAt` changes when the id is present. -/
def removeDependency (t : Task) (taskId : String) (now : Nat) : Task :=
  if t._dependencies.contains taskId then { t with updatedAt := now } else t

/-- Model of `Task.hasDependency` (`this.dependencies.includes(taskId)`; the
getter's copy has the same contents as `_dependencies`). -/
def hasDependency (t : Task) (taskId : String) : Bool :=
  t._dependencies.contains taskId

/-- Contents returned by the `tags` getter (a fresh copy of `_tags`). -/
def tagsGet (t : Task) : List String := t._tags

/-- Contents returned by the `notes` getter. -/
def notesGet (t : Task) : List Note := t._notes

/-- Contents returned by the `dependencies` getter. -/
def dependenciesGet (t : Task) : List String := t._dependencies

/-- The `tags` setter (`this._tags = [...value]` for an array input). -/
def tagsSet (t : Task) (value : List String) : Task :=
  { t with _tags := value }

/-- The `notes` setter. -/
def notesSet (t : Task) (value : List Note) : Task :=
  { t with _notes := value }

/-- The `dependencies` setter. -/
def dependenciesSet (t : Task) (value : List String) : Task :=
  { t with _dependencies := value }

/-- Plain object produced by `Task.toJSON`. -/
structure TaskJSON where
  id : String
  title : String
  description : String
  userId : String
  assignedTo : String
  completed : Bool
  status : String
  completedAt : Option Nat
  priority : String
  category : String
  createdAt : Nat
  updatedAt : Nat
  dueDate : Option Nat
  estimatedHours : Option Rat
  actualHours : Option Rat
  tags : List String
  notes : List Note
  dependencies : List String
  projectId : Option String
  parentTaskId : Option String
  recurrence : Option String
deriving Repr, DecidableEq

/-- Model of `Task.toJSON` (the three collections are copied). -/
def toJSON (t : Task) : TaskJSON :=
  { id := t.id
    title := t.title
    description := t.description
    userId := t.userId
    assignedTo := t.assignedTo
    completed := t.completed
    status := t.status
    completedAt := t.completedAt
    priority := t.priority
    category := t.category
    createdAt := t.createdAt
    updatedAt := t.updatedAt
    dueDate := t.dueDate
    estimatedHours := t.estimatedHours
    actualHours := t.actualHours
    tags := t._tags
    notes := t._notes
    dependencies := t._dependencies
    projectId := t.projectId
    parentTaskId := t.parentTaskId
    recurrence := t.recurrence }

/-- Model of `Task.fromJSON`: rebuilds through the constructor (whose generated
id and timestamps are then overwritten) and restores the remaining
fields directly. -/
def fromJSON (json : TaskJSON) : Except String Task :=
  match taskNew json.title json.description json.userId
    { assignedTo := some json.assignedTo
      priority := some json.priority
      category := some json.category
      dueDate := json.dueDate
      estimatedHours := json.estimatedHours
      actualHours := json.actualHours
      projectId := json.projectId
      parentTaskId := json.parentTaskId
      recurrence := json.recurrence } 0 "" with
  | .error e => .error e
  | .ok task =>
  .ok { task with
        id := json.id
        completed := json.completed
        status := json.status
        completedAt := jsTruthyNat json.completedAt
        createdAt := json.createdAt
        updatedAt := json.updatedAt
        _tags := json.tags
        _notes := json.notes
        _dependencies := json.dependencies }

/-! ## Heap model for the copying getters

The `tags`/`notes`/`dependencies` getters return `[...this._backing]`, a
freshly allocated array.  To settle the aliasing-sensitive claims we
model a heap of JS arrays explicitly: an array value is a reference
(index) into a store, `[...]` allocates, and in-place `push`/`splice`
writes through a reference. -/

/-- A heap of JS arrays with elements of type `α`. -/
abbrev Store (α : Type) := List (List α)

/-- Allocate a fresh array holding `v` (the spread `[...]`). -/
def alloc (s : Store α) (v : List α) : Store α × Nat :=
  (s ++ [v], s.length)

/-- Dereference an array. -/
def readRef (s : Store α) (r : Nat) : List α :=
  s.getD r []

/-- Mutate the array behind a reference in place (push/splice). -/
def writeRef (s : Store α) (r : Nat) (v : List α) : Store α :=
  s.set r v

/-- The reference-level view of a Task: each private collection field
holds a reference into the corresponding heap. -/
structure TaskH where
  id : String
  tagsRef : Nat
  notesRef : Nat
  depsRef : Nat
  updatedAt : Nat
deriving Repr, DecidableEq

/-- Model of `get tags() { return [...(this._tags || [])]; }`. -/
def tagsGetH (s : Store String) (t : TaskH) : Store String × Nat :=
  alloc s (readRef s t.tagsRef)

/-- Model of `get notes() { return [...(this._notes || [])]; }`. -/
def notesGetH (s : Store Note) (t : TaskH) : Store Note × Nat :=
  alloc s (readRef s t.notesRef)

/-- Model of `get dependencies() { return [...(this._dependencies || [])]; }`. -/
def dependenciesGetH (s : Store String) (t : TaskH) : Store String × Nat :=
  alloc s (readRef s t.depsRef)

/-- The `tags: [...this.tags]` copy made by `toJSON` (a copy of the
getter's copy). -/
def toJSONTagsH (s : Store String) (t : TaskH) : Store String × Nat :=
  match tagsGetH s t with
  | (s1, r1) => alloc s1 (readRef s1 r1)

/-- Heap-level `Task.addDependency`: the `includes` check reads one
getter copy; the `push` then writes through the reference returned by a
second getter call, exactly as `this.dependencies.push(taskId)` does. -/
def addDependencyH (s : Store String) (t : TaskH) (taskId : String)
    (now : Nat) : Except String (Store String × TaskH) :=
  if taskId = t.id then .error "Task cannot depend on itself"
  else
    match dependenciesGetH s t with
    | (s1, r1) =>
      if (readRef s1 r1).contains taskId then .ok (s1, t)
      else
        match dependenciesGetH s1 t with
        | (s2, r2) =>
          let s3 := writeRef s2 r2 (readRef s2 r2 ++ [taskId])
          .ok (s3, { t with updatedAt := now })

/-- Heap-level `Task.hasDependency`
(`this.dependencies.includes(taskId)`). -/
def hasDependencyH (s : Store String) (t : TaskH) (taskId : String) : Bool :=
  match dependenciesGetH s t with
  | (s1, r1) => (readRef s1 r1).contains taskId

/-! ## task-repository.js -/

/-- The in-memory index `this.tasks` (a `Map` keyed by task id,
insertion order preserved). -/
abbrev TaskMap := List (String × Task)

/-- Model of `this.tasks.get(taskId)`. -/
def mapGet (tasks : TaskMap) (taskId : String) : Option Task :=
  (tasks.find? (fun p => p.1 == taskId)).map (·.2)

/-- Model of `this.tasks.set(taskId, task)`: replaces in place, or appends. -/
def mapSet (tasks : TaskMap) (taskId : String) (t : Task) : TaskMap :=
  if (tasks.find? (fun p => p.1 == taskId)).isSome then
    tasks.map (fun p => if p.1 == taskId then (p.1, t) else p)
  else tasks ++ [(taskId, t)]

/-- Model of `this.tasks.delete(taskId)`. -/
def mapDelete (tasks : TaskMap) (taskId : String) : TaskMap :=
  tasks.filter (fun p => p.1 != taskId)

/-- The partial-fields object passed to `TaskRepository.update`; the
fields exercised by the claims are modelled.  These are plain data
properties of Task, so `Object.assign` copies each present key directly
onto the entity without running any mutator. -/
structure TRUpdates where
  title : Option String := none
  description : Option String := none
  priority : Option String := none
  status : Option String := none
deriving Repr, DecidableEq

/-- Model of `Object.assign(task, updates)` restricted to the modelled keys. -/
def objectAssign (t : Task) (u : TRUpdates) : Task :=
  { t with
    title := u.title.getD t.title
    description := u.description.getD t.description
    priority := u.priority.getD t.priority
    status := u.status.getD t.status }

/-- Model of `TaskRepository.update` (task-repository.js): returns null when the
id is absent; otherwise `Object.assign(task, updates)` followed by an
`updatedAt` bump, mutating the indexed entity in place. -/
def trUpdate (tasks : TaskMap) (taskId : String) (updates : TRUpdates)
    (now : Nat) : Option Task × TaskMap :=
  match mapGet tasks taskId with
  | none => (none, tasks)
  | some task =>
    let task1 := { objectAssign task updates with updatedAt := now }
    (some task1, mapSet tasks taskId task1)

/-- Model of `TaskRepository.deleteTask` (task-repository.js): throws
`Task not found` for a missing id; otherwise removes the entry and
returns the removed task. -/
def trDeleteTask (tasks : TaskMap) (taskId : String) :
    Except String (Task × TaskMap) :=
  match mapGet tasks taskId with
  | none => .error "Task not found"
  | some task => .ok (task, mapDelete tasks taskId)

/-! ## The simplified (step-by-step guide) variant -/

/-- A note record of the simplified `EnhancedTask` (`addNote` uses
`Date.now()` as the id). -/
structure ENote where
  id : Nat
  content : String
  createdAt : Nat
deriving Repr, DecidableEq

/-- The simplified `EnhancedTask` entity. -/
structure ETask where
  id : String
  title : String
  description : String
  ownerId : String
  assigneeId : String
  category : String
  tags : List String
  priority : String
  status : String
  dueDate : Option Nat
  createdAt : Nat
  updatedAt : Nat
  completedAt : Option Nat
  estimatedHours : Rat
  actualHours : Rat
  notes : List ENote
deriving Repr, DecidableEq

/-- Model of `EnhancedTask._validateCategory`. -/
def eValidateCategory (category : String) : Except String String :=
  if ["work", "personal", "study", "health", "finance", "other"].contains
      category then .ok category
  else .error ("Kategori tidak valid: " ++ category ++
    ". Harus salah satu dari: work, personal, study, health, finance, other")

/-- Model of `EnhancedTask._validatePriority`. -/
def eValidatePriority (priority : String) : Except String String :=
  if ["low", "medium", "high", "urgent"].contains priority then .ok priority
  else .error ("Prioritas tidak valid: " ++ priority ++
    ". Harus salah satu dari: low, medium, high, urgent")

/-- Model of `EnhancedTask._validateStatus`. -/
def eValidateStatus (status : String) : Except String String :=
  if ["pending", "in-progress", "blocked", "completed", "cancelled"].contains
      status then .ok status
  else .error ("Status tidak valid: " ++ status ++
    ". Harus salah satu dari: pending, in-progress, blocked, completed, cancelled")

/-- Model of `EnhancedTask.updateTitle`. -/
def eUpdateTitle (t : ETask) (newTitle : String) (now : Nat) :
    Except String ETask :=
  if jsTrim newTitle = "" then .error "Judul task tidak boleh kosong"
  else .ok { t with title := jsTrim newTitle, updatedAt := now }

/-- Model of `EnhancedTask.updateDescription`. -/
def eUpdateDescription (t : ETask) (newDescription : String) (now : Nat) :
    ETask :=
  { t with description := jsTrim newDescription, updatedAt := now }

/-- Model of `EnhancedTask.updateCategory`. -/
def eUpdateCategory (t : ETask) (newCategory : String) (now : Nat) :
    Except String ETask :=
  match eValidateCategory newCategory with
  | .error e => .error e
  | .ok c => .ok { t with category := c, updatedAt := now }

/-- Model of `EnhancedTask.updatePriority`. -/
def eUpdatePriority (t : ETask) (newPriority : String) (now : Nat) :
    Except String ETask :=
  match eValidatePriority newPriority with
  | .error e => .error e
  | .ok p => .ok { t with priority := p, updatedAt := now }

/-- Model of `EnhancedTask.updateStatus`. -/
def eUpdateStatus (t : ETask) (newStatus : String) (now : Nat) :
    Except String ETask :=
  match eValidateStatus newStatus with
  | .error e => .error e
  | .ok s =>
    let completedAt :=
      if newStatus == "completed" && t.status != "completed" then some now
      else if newStatus != "completed" then none
      else t.completedAt
    .ok { t with status := s, completedAt := completedAt, updatedAt := now }

/-- Model of `EnhancedTask.setDueDate` (simplified variant: no validation). -/
def eSetDueDate (t : ETask) (dueDate : Option Nat) (now : Nat) : ETask :=
  { t with dueDate := jsTruthyNat dueDate, updatedAt := now }

/-- Model of `EnhancedTask.assignTo` (simplified variant: no validation). -/
def eAssignTo (t : ETask) (userId : String) (now : Nat) : ETask :=
  { t with assigneeId := userId, updatedAt := now }

/-- Model of `EnhancedTask.addTimeSpent` (`if (hours > 0)` — no throw). -/
def eAddTimeSpent (t : ETask) (hours : Rat) (now : Nat) : ETask :=
  if 0 < hours then
    { t with actualHours := t.actualHours + hours, updatedAt := now }
  else t

/-- Model of `EnhancedTask.setEstimatedHours` (`Math.max(0, hours)`). -/
def eSetEstimatedHours (t : ETask) (hours : Rat) (now : Nat) : ETask :=
  { t with estimatedHours := max 0 hours, updatedAt := now }

/-- Model of `EnhancedTask.addTag`. -/
def eAddTag (t : ETask) (tag : String) (now : Nat) : ETask :=
  if tag != "" && !t.tags.contains tag then
    { t with tags := t.tags ++ [tag], updatedAt := now }
  else t

/-- Model of `EnhancedTask.removeTag`. -/
def eRemoveTag (t : ETask) (tag : String) (now : Nat) : ETask :=
  if t.tags.contains tag then
    { t with tags := t.tags.erase tag, updatedAt := now }
  else t

/-- Model of `EnhancedTask.addNote`. -/
def eAddNote (t : ETask) (note : String) (now : Nat) (noteId : Nat) : ETask :=
  if jsTrim note != "" then
    { t with
      notes := t.notes ++ [{ id := noteId, content := jsTrim note,
                             createdAt := now }]
      updatedAt := now }
  else t

/-- The updates object consumed by the simplified
`TaskRepository.update`; each key is applied through the corresponding
mutator when it is not `undefined`. -/
structure SUpdates where
  title : Option String := none
  description : Option String := none
  category : Option String := none
  priority : Option String := none
  status : Option String := none
  dueDate : Option (Option Nat) := none
  assigneeId : Option String := none
  estimatedHours : Option Rat := none
  addTimeSpent : Option Rat := none
  addTag : Option String := none
  removeTag : Option String := none
  addNote : Option String := none
deriving Repr, DecidableEq

/-- Sequencing helper: run the next field mutator unless an earlier one
already threw; on a throw, remember the task as mutated so far (the
source mutates the cached entity in place, so earlier field changes
survive the throw). -/
def sStep (res : Except (String × ETask) ETask)
    (f : ETask → Except String ETask) : Except (String × ETask) ETask :=
  match res with
  | .error e => .error e
  | .ok t =>
    match f t with
    | .error m => .error (m, t)
    | .ok t2 => .ok t2

/-- The field-application sequence of the simplified
`TaskRepository.update`, in source order. -/
def sApplyUpdates (t : ETask) (u : SUpdates) (now : Nat) (noteId : Nat) :
    Except (String × ETask) ETask :=
  let r := Except.ok t
  let r := sStep r (fun t1 => match u.title with
    | none => .ok t1 | some v => eUpdateTitle t1 v now)
  let r := sStep r (fun t1 => match u.description with
    | none => .ok t1 | some v => .ok (eUpdateDescription t1 v now))
  let r := sStep r (fun t1 => match u.category with
    | none => .ok t1 | some v => eUpdateCategory t1 v now)
  let r := sStep r (fun t1 => match u.priority with
    | none => .ok t1 | some v => eUpdatePriority t1 v now)
  let r := sStep r (fun t1 => match u.status with
    | none => .ok t1 | some v => eUpdateStatus t1 v now)
  let r := sStep r (fun t1 => match u.dueDate with
    | none => .ok t1 | some v => .ok (eSetDueDate t1 v now))
  let r := sStep r (fun t1 => match u.assigneeId with
    | none => .ok t1 | some v => .ok (eAssignTo t1 v now))
  let r := sStep r (fun t1 => match u.estimatedHours with
    | none => .ok t1 | some v => .ok (eSetEstimatedHours t1 v now))
  let r := sStep r (fun t1 => match u.addTimeSpent with
    | none => .ok t1 | some v => .ok (eAddTimeSpent t1 v now))
  let r := sStep r (fun t1 => match u.addTag with
    | none => .ok t1 | some v => .ok (eAddTag t1 v now))
  let r := sStep r (fun t1 => match u.removeTag with
    | none => .ok t1 | some v => .ok (eRemoveTag t1 v now))
  let r := sStep r (fun t1 => match u.addNote with
    | none => .ok t1 | some v => .ok (eAddNote t1 v now noteId))
  r

/-- The in-memory index of the simplified repository. -/
abbrev EMap := List (String × ETask)

/-- Model of `this.tasks.get(id)` of the simplified repository. -/
def eMapGet (tasks : EMap) (taskId : String) : Option ETask :=
  (tasks.find? (fun p => p.1 == taskId)).map (·.2)

/-- Model of `this.tasks.set(id, task)` of the simplified repository. -/
def eMapSet (tasks : EMap) (taskId : String) (t : ETask) : EMap :=
  if (tasks.find? (fun p => p.1 == taskId)).isSome then
    tasks.map (fun p => if p.1 == taskId then (p.1, t) else p)
  else tasks ++ [(taskId, t)]

/-- Model of `this.tasks.delete(id)` of the simplified repository. -/
def eMapDelete (tasks : EMap) (taskId : String) : EMap :=
  tasks.filter (fun p => p.1 != taskId)

/-- Result of the simplified `TaskRepository.update`: `notFound` models
the null return, `ok` the returned entity, and `err` a rethrown mutator
failure carrying the partially-mutated entity that remains in the
in-memory index. -/
inductive SUpdateResult where
  | notFound : SUpdateResult
  | ok : ETask → SUpdateResult
  | err : String → ETask → SUpdateResult
deriving Repr, DecidableEq

/-- The simplified `TaskRepository.update`: null when the id is absent;
otherwise each provided field goes through the corresponding entity
mutator, a mutator throw is rethrown (leaving the in-place mutations of
the earlier fields behind), and on success the updated entity is
returned and persisted. -/
def sUpdate (tasks : EMap) (taskId : String) (u : SUpdates) (now : Nat)
    (noteId : Nat) : SUpdateResult × EMap :=
  match eMapGet tasks taskId with
  | none => (.notFound, tasks)
  | some task =>
    match sApplyUpdates task u now noteId with
    | .ok t2 => (.ok t2, eMapSet tasks taskId t2)
    | .error (m, tMid) => (.err m tMid, eMapSet tasks taskId tMid)

/-- The simplified `TaskRepository.delete`: removes the entry and
returns true when the id exists, otherwise returns false; never throws. -/
def sDelete (tasks : EMap) (taskId : String) : Bool × EMap :=
  if (eMapGet tasks taskId).isSome then (true, eMapDelete tasks taskId)
  else (false, tasks)

/-! ## Concrete instances used by the claim theorems -/

/-- The task produced by
`new Task('Write the spec', '', 'u1')` at time 0 with generated id
`task_1` (see `baseTask_reachable`). -/
def baseTask : Task :=
  { id := "task_1"
    title := "Write the spec"
    description := ""
    userId := "u1"
    assignedTo := "u1"
    completed := false
    status := "pending"
    completedAt := none
    priority := "medium"
    category := "general"
    createdAt := 0
    updatedAt := 0
    dueDate := none
    estimatedHours := none
    actualHours := none
    _tags := []
    _notes := []
    _dependencies := []
    projectId := none
    parentTaskId := none
    recurrence := none }

/-- A concrete simplified-variant task used by repository witnesses. -/
def baseETask : ETask :=
  { id := "task_1"
    title := "Tulis spec"
    description := ""
    ownerId := "u1"
    assigneeId := "u1"
    category := "personal"
    tags := []
    priority := "medium"
    status := "pending"
    dueDate := none
    createdAt := 0
    updatedAt := 0
    completedAt := none
    estimatedHours := 0
    actualHours := 0
    notes := [] }

/-- Completion/status invariant of the Task entity:
`completed == (status == 'completed')` and
`completedAt != null ⟺ completed == true`. -/
abbrev TaskInv (t : Task) : Prop :=
  (t.completed = true ↔ t.status = "completed") ∧
  t.completedAt.isSome = t.completed

/-- Canonical form of every Task reachable through the public API that
additionally avoids the JS-falsy values collapsed by `fromJSON`
(`estimatedHours || null`, `actualHours || null`, `dueDate ? _ : null`,
`completedAt ? _ : null`, `projectId || null`, …): title/userId trimmed
and non-empty, description trimmed, assignee non-empty, priority in the
entity enum, category non-empty and normalization-fixed, no timestamp 0
and no zero hours, no empty-string optional ids. -/
abbrev Reachable (t : Task) : Prop :=
  jsTrim t.title = t.title ∧ t.title ≠ "" ∧
  jsTrim t.description = t.description ∧
  jsTrim t.userId = t.userId ∧ t.userId ≠ "" ∧
  t.assignedTo ≠ "" ∧
  validPriorities.contains t.priority = true ∧
  t.category ≠ "" ∧ jsToLower (jsTrim t.category) = t.category ∧
  t.dueDate ≠ some 0 ∧
  t.completedAt ≠ some 0 ∧
  t.estimatedHours ≠ some 0 ∧
  t.actualHours ≠ some 0 ∧
  t.projectId ≠ some "" ∧
  t.parentTaskId ≠ some "" ∧
  t.recurrence ≠ some ""

/-- Heap view of a freshly constructed task: its `_tags` array is
reference 0 and its `_dependencies` array reference 1 in the string
heap `[[], []]`. -/
def c1taskH : TaskH :=
  { id := "task_1", tagsRef := 0, notesRef := 0, depsRef := 1, updatedAt := 0 }

/-- State of `baseTask` after `markComplete` at time 5. -/
def completedBase : Task := markComplete baseTask 5

end TaskApp

namespace TaskApp

/-! ## Claim theorems -/

/-- C1: `addDependency(d)` throws exactly on `d == this.id` and then
leaves the dependency set unchanged, and it does bump `updatedAt` for a
new `d` — but the recording `push` is applied to the fresh copy returned
by the `dependencies` getter, so the dependency is never stored:
afterwards `hasDependency(d)` is `false`, the `dependencies` getter does
not contain `d`, and the pushed value survives only in the discarded
copy (reference 3 of the final heap). -/
theorem addDependency_push_hits_discarded_copy :
    addDependencyH [[], []] c1taskH "task_1" 7
        = .error "Task cannot depend on itself"
    ∧ addDependencyH [[], []] c1taskH "task_2" 7
        = .ok ([[], [], [], ["task_2"]], { c1taskH with updatedAt := 7 })
    ∧ hasDependencyH [[], [], [], ["task_2"]]
        { c1taskH with updatedAt := 7 } "task_2" = false
    ∧ readRef ([[], [], [], ["task_2"]] : Store String) c1taskH.depsRef = []
    ∧ readRef ([[], [], [], ["task_2"]] : Store String) 3 = ["task_2"]
    ∧ addDependency baseTask "task_1" 7 = .error "Task cannot depend on itself"
    ∧ addDependency baseTask "task_2" 7 = .ok { baseTask with updatedAt := 7 }
    ∧ hasDependency { baseTask with updatedAt := 7 } "task_2" = false
    ∧ dependenciesGet { baseTask with updatedAt := 7 } = [] := by
  decide

/-- C2: `validateTask` (and hence `validateTaskUpdate`, despite its own
comment) runs the title strategy even when the `title` key is absent, so
the partial update `{priority: 'high'}` — whose only present field is
valid — comes back `isValid = false` with a `title: Title is required`
error. -/
theorem validateTaskUpdate_demands_absent_title :
    (validateTaskUpdate { priority := some (some "high") } 0).isValid = false
    ∧ (validateTaskUpdate { priority := some (some "high") } 0).errors
        = ["title: Title is required"]
    ∧ (validateTaskUpdate { priority := some (some "high") } 0).fieldResults.priority
        = some ⟨true, [], some "high"⟩
    ∧ validateTaskUpdate { priority := some (some "high") } 0
        = validateTask { priority := some (some "high") } 0 := by
  decide

/-- C5: on a completed task (reachable as `markComplete` of a fresh
task), `setStatus('in-progress')` does not leave the status at
`in-progress`: the `markIncomplete` call it makes to clear the
completion flags resets `status` to `pending` (same for `cancelled`). -/
theorem setStatus_from_completed_lands_on_pending :
    completedBase = markComplete baseTask 5
    ∧ completedBase.status = "completed"
    ∧ completedBase.completed = true
    ∧ (setStatus completedBase "in-progress" 9).map (fun t => t.status)
        = .ok "pending"
    ∧ (setStatus completedBase "in-progress" 9).map (fun t => t.completed)
        = .ok false
    ∧ (setStatus completedBase "in-progress" 9).map (fun t => t.completedAt)
        = .ok none
    ∧ (setStatus completedBase "cancelled" 9).map (fun t => t.status)
        = .ok "pending" := by
  decide

/-- C6: the source's `sanitize` replaces `<`, `>` and `"` by themselves
(only `&` and the apostrophe are rewritten), so the valid title
`3 < 5` — accepted because `/<[^>]*>/` needs a closing `>` — keeps its
angle bracket in `sanitizedValue` and in `sanitizedData`. -/
theorem sanitize_keeps_angle_brackets :
    sanitize "3 < 5" = "3 < 5"
    ∧ sanitize "a&b" = "a&amp;b"
    ∧ (validateTask { title := some (some "3 < 5") } 0).isValid = true
    ∧ (validateTask { title := some (some "3 < 5") } 0).sanitizedData.title
        = some "3 < 5"
    ∧ ("3 < 5".data.contains '<') = true := by
  decide

/-- C7: `PriorityValidationStrategy` accepts only `high`/`medium`/`low`
(case-insensitively, defaulting a missing value to `medium`) and rejects
`urgent` and `URGENT` — though the Task entity's own
`validatePriority` accepts `urgent`. -/
theorem priority_strategy_rejects_urgent :
    priorityValidate (some "urgent")
        = ⟨false, ["Priority must be one of: high, medium, low"], none⟩
    ∧ priorityValidate (some "URGENT")
        = ⟨false, ["Priority must be one of: high, medium, low"], none⟩
    ∧ validatePriorityT "urgent" = .ok "urgent"
    ∧ priorityValidate none = ⟨true, [], some "medium"⟩
    ∧ priorityValidate (some "") = ⟨true, [], some "medium"⟩
    ∧ priorityValidate (some "HIGH") = ⟨true, [], some "high"⟩ := by
  decide

/-- C3 counterexample: `TaskRepository.update` in task-repository.js
assigns fields with `Object.assign`, so the invalid empty title — which
the entity mutator `updateTitle` would reject — is stored on the task
and persisted in the index. -/
theorem trUpdate_stores_invalid_title :
    (trUpdate [("task_1", baseTask)] "task_1" { title := some "" } 9).1
        = some { baseTask with title := "", updatedAt := 9 }
    ∧ mapGet (trUpdate [("task_1", baseTask)] "task_1"
        { title := some "" } 9).2 "task_1"
        = some { baseTask with title := "", updatedAt := 9 }
    ∧ updateTitle baseTask "" 9 = .error "Task title cannot be empty" := by
  decide

/-- C8 counterexample: `TaskRepository.deleteTask` in task-repository.js
throws `Task not found` for a missing id instead of returning `false`,
and on success returns the removed task, not a boolean. -/
theorem deleteTask_throws_for_missing_id :
    trDeleteTask [] "task_9" = .error "Task not found"
    ∧ trDeleteTask [("task_1", baseTask)] "task_9"
        = .error "Task not found"
    ∧ trDeleteTask [("task_1", baseTask)] "task_1" = .ok (baseTask, []) := by
  decide

/-- C9 counterexample: a task with `estimatedHours = 0` (reachable via
`setEstimatedHours(0)`, which its guard allows) does not round-trip:
the constructor's `options.estimatedHours || null` collapses 0 to null,
so `fromJSON(toJSON(t))` differs from `t`. -/
theorem roundTrip_drops_zero_estimated_hours :
    (taskNew "Write the spec" "" "u1" {} 0 "task_1").bind
        (fun t => setEstimatedHours t (some 0) 1)
        = .ok { baseTask with estimatedHours := some 0, updatedAt := 1 }
    ∧ fromJSON (toJSON { baseTask with estimatedHours := some 0, updatedAt := 1 })
        = .ok { baseTask with estimatedHours := none, updatedAt := 1 }
    ∧ fromJSON (toJSON { baseTask with estimatedHours := some 0, updatedAt := 1 })
        ≠ .ok { baseTask with estimatedHours := some 0, updatedAt := 1 } := by
  decide

/-- C4: the constructor establishes, and every named mutator of the Task
entity preserves, the invariant `completed == (status == 'completed')`
and `completedAt != null ⟺ completed == true` (mutators that throw
preserve it on their success path; the thrown case leaves the entity
untouched by construction). -/
theorem task_mutators_preserve_invariant :
    (∀ title description userId options now freshId t,
      taskNew title description userId options now freshId = .ok t →
        TaskInv t)
    ∧ (∀ t now, TaskInv t → TaskInv (markComplete t now))
    ∧ (∀ t now, TaskInv t → TaskInv (markIncomplete t now))
    ∧ (∀ t s now t2, TaskInv t → setStatus t s now = .ok t2 → TaskInv t2)
    ∧ (∀ t v now t2, TaskInv t → updateTitle t v now = .ok t2 → TaskInv t2)
    ∧ (∀ t v now, TaskInv t → TaskInv (updateDescription t v now))
    ∧ (∀ t v now t2, TaskInv t → updatePriority t v now = .ok t2 → TaskInv t2)
    ∧ (∀ t v now t2, TaskInv t → assignTo t v now = .ok t2 → TaskInv t2)
    ∧ (∀ t now, TaskInv t → TaskInv (reassignToOwner t now))
    ∧ (∀ t v now t2, TaskInv t → setCategory t v now = .ok t2 → TaskInv t2)
    ∧ (∀ t v now t2, TaskInv t → addTag t v now = .ok t2 → TaskInv t2)
    ∧ (∀ t v now, TaskInv t → TaskInv (removeTag t v now))
    ∧ (∀ t now, TaskInv t → TaskInv (clearTags t now))
    ∧ (∀ t d now, TaskInv t → TaskInv (setDueDate t d now))
    ∧ (∀ t now, TaskInv t → TaskInv (clearDueDate t now))
    ∧ (∀ t v now t2, TaskInv t →
        setEstimatedHours t v now = .ok t2 → TaskInv t2)
    ∧ (∀ t v now t2, TaskInv t → setActualHours t v now = .ok t2 → TaskInv t2)
    ∧ (∀ t v now t2, TaskInv t → addTimeSpent t v now = .ok t2 → TaskInv t2)
    ∧ (∀ t c a now nid t2, TaskInv t →
        addNote t c a now nid = .ok t2 → TaskInv t2)
    ∧ (∀ t n now, TaskInv t → TaskInv (removeNote t n now))
    ∧ (∀ t d now t2, TaskInv t → addDependency t d now = .ok t2 → TaskInv t2)
    ∧ (∀ t d now, TaskInv t → TaskInv (removeDependency t d now)) := by
  refine ⟨?_, ?_, ?_, ?_, ?_, ?_, ?_, ?_, ?_, ?_, ?_, ?_, ?_, ?_, ?_, ?_,
    ?_, ?_, ?_, ?_, ?_, ?_⟩
  · intro title description userId options now freshId t h
    unfold taskNew at h
    split at h
    · exact Except.noConfusion h
    split at h
    · exact Except.noConfusion h
    split at h
    · exact Except.noConfusion h
    · cases h; exact ⟨by simp, rfl⟩
  · intro t now hInv
    unfold markComplete
    split
    · exact ⟨by simp, rfl⟩
    · exact hInv
  · intro t now hInv
    unfold markIncomplete
    split
    · exact ⟨by simp, rfl⟩
    · exact hInv
  · intro t s now t2 hInv h
    unfold setStatus at h
    split at h
    · exact Except.noConfusion h
    · cases h
      cases hc : t.completed <;> by_cases hs : s = "completed" <;>
        simp_all [markComplete, markIncomplete, TaskInv]
  · intro t v now t2 hInv h
    unfold updateTitle at h
    split at h
    · exact Except.noConfusion h
    · cases h; exact hInv
  · intro t v now hInv
    exact hInv
  · intro t v now t2 hInv h
    unfold updatePriority at h
    split at h
    · exact Except.noConfusion h
    · cases h; exact hInv
  · intro t v now t2 hInv h
    unfold assignTo at h
    split at h
    · exact Except.noConfusion h
    · cases h; exact hInv
  · intro t now hInv
    exact hInv
  · intro t v now t2 hInv h
    unfold setCategory at h
    split at h
    · exact Except.noConfusion h
    · cases h; exact hInv
  · intro t v now t2 hInv h
    unfold addTag at h
    split at h
    · exact Except.noConfusion h
    · dsimp only at h
      split at h
      · cases h; exact hInv
      · cases h; exact hInv
  · intro t v now hInv
    unfold removeTag
    dsimp only
    split
    · exact hInv
    · exact hInv
  · intro t now hInv
    exact hInv
  · intro t d now hInv
    exact hInv
  · intro t now hInv
    exact hInv
  · intro t v now t2 hInv h
    unfold setEstimatedHours at h
    split at h
    · split at h
      · exact Except.noConfusion h
      · cases h; exact hInv
    · cases h; exact hInv
  · intro t v now t2 hInv h
    unfold setActualHours at h
    split at h
    · split at h
      · exact Except.noConfusion h
      · cases h; exact hInv
    · cases h; exact hInv
  · intro t v now t2 hInv h
    unfold addTimeSpent at h
    split at h
    · exact Except.noConfusion h
    · cases h; exact hInv
  · intro t c a now nid t2 hInv h
    unfold addNote at h
    split at h
    · exact Except.noConfusion h
    · cases h; exact hInv
  · intro t n now hInv
    unfold removeNote
    split
    · exact hInv
    · exact hInv
  · intro t d now t2 hInv h
    unfold addDependency at h
    split at h
    · exact Except.noConfusion h
    split at h
    · cases h; exact hInv
    · cases h; exact hInv
  · intro t d now hInv
    unfold removeDependency
    split
    · exact hInv
    · exact hInv

/-- Witness for C4 at concrete inputs: the constructed `baseTask`
satisfies the invariant, via the constructor conjunct of
`task_mutators_preserve_invariant`. -/
theorem task_mutators_preserve_invariant_witness :
    taskNew "Write the spec" "" "u1" {} 0 "task_1" = .ok baseTask
    ∧ TaskInv baseTask ∧ TaskInv (markComplete baseTask 5) :=
  ⟨by decide,
   task_mutators_preserve_invariant.1 "Write the spec" "" "u1" {} 0 "task_1"
     baseTask (by decide),
   task_mutators_preserve_invariant.2.1 baseTask 5
     (task_mutators_preserve_invariant.1 "Write the spec" "" "u1" {} 0
       "task_1" baseTask (by decide))⟩

/-- C3 (amended): both repository update variants return null for a
missing id; the simplified variant routes each provided field through
the corresponding entity mutator — an invalid title or priority makes
the mutator throw, so the invalid value is never stored, while a valid
title is trimmed, stored and persisted — but the advanced
task-repository.js variant assigns every provided field directly with
`Object.assign`, without any mutator validation. -/
theorem repository_update_contract :
    (∀ tasks taskId u now, mapGet tasks taskId = none →
      trUpdate tasks taskId u now = (none, tasks))
    ∧ (∀ tasks taskId u now t, mapGet tasks taskId = some t →
      (trUpdate tasks taskId u now).1
        = some { objectAssign t u with updatedAt := now })
    ∧ (∀ tasks taskId u now noteId, eMapGet tasks taskId = none →
      sUpdate tasks taskId u now noteId = (.notFound, tasks))
    ∧ (∀ tasks taskId now noteId t s, eMapGet tasks taskId = some t →
      jsTrim s = "" →
      sUpdate tasks taskId { title := some s } now noteId
        = (.err "Judul task tidak boleh kosong" t, eMapSet tasks taskId t))
    ∧ (∀ tasks taskId now noteId t p, eMapGet tasks taskId = some t →
      (["low", "medium", "high", "urgent"] : List String).contains p = false →
      (sUpdate tasks taskId { priority := some p } now noteId).1
        = .err ("Prioritas tidak valid: " ++ p ++
            ". Harus salah satu dari: low, medium, high, urgent") t)
    ∧ (∀ tasks taskId now noteId t s, eMapGet tasks taskId = some t →
      jsTrim s ≠ "" →
      sUpdate tasks taskId { title := some s } now noteId
        = (.ok { t with title := jsTrim s, updatedAt := now },
           eMapSet tasks taskId { t with title := jsTrim s, updatedAt := now })) := by
  refine ⟨?_, ?_, ?_, ?_, ?_, ?_⟩
  · intro tasks taskId u now h
    simp [trUpdate, h]
  · intro tasks taskId u now t h
    simp [trUpdate, h]
  · intro tasks taskId u now noteId h
    simp [sUpdate, h]
  · intro tasks taskId now noteId t s hget htrim
    simp [sUpdate, hget, sApplyUpdates, sStep, eUpdateTitle, htrim]
  · intro tasks taskId now noteId t p hget hp
    have hp2 : ¬(p = "low" ∨ p = "medium" ∨ p = "high" ∨ p = "urgent") := by
      simpa using hp
    simp [sUpdate, hget, sApplyUpdates, sStep, eUpdatePriority,
      eValidatePriority, hp2]
  · intro tasks taskId now noteId t s hget htrim
    simp [sUpdate, hget, sApplyUpdates, sStep, eUpdateTitle, htrim]

/-- Witness for C3 (amended) at concrete inputs: missing-id update
returns null, and an out-of-enum priority is rejected by the simplified
variant's mutator instead of being stored. -/
theorem repository_update_contract_witness :
    mapGet [] "task_9" = none
    ∧ trUpdate [] "task_9" { title := some "" } 3 = (none, [])
    ∧ eMapGet [("task_1", baseETask)] "task_1" = some baseETask
    ∧ (sUpdate [("task_1", baseETask)] "task_1"
        { priority := some "critical" } 3 7).1
        = .err ("Prioritas tidak valid: " ++ "critical" ++
            ". Harus salah satu dari: low, medium, high, urgent") baseETask :=
  ⟨by decide,
   repository_update_contract.1 [] "task_9" { title := some "" } 3 (by decide),
   by decide,
   repository_update_contract.2.2.2.2.1 [("task_1", baseETask)] "task_1" 3 7
     baseETask "critical" (by decide) (by decide)⟩

/-- C8 (amended): the simplified variant's `delete(id)` returns a
boolean that is true exactly when a task with that id existed (removing
it from the index) and never throws; the advanced task-repository.js
`deleteTask(id)` instead throws `Task not found` for a missing id and
returns the removed task on success. -/
theorem repository_delete_contract :
    (∀ tasks taskId, (sDelete tasks taskId).1 = (eMapGet tasks taskId).isSome)
    ∧ (∀ tasks taskId t, eMapGet tasks taskId = some t →
      sDelete tasks taskId = (true, eMapDelete tasks taskId))
    ∧ (∀ tasks taskId, eMapGet tasks taskId = none →
      sDelete tasks taskId = (false, tasks))
    ∧ (∀ tasks taskId, mapGet tasks taskId = none →
      trDeleteTask tasks taskId = .error "Task not found")
    ∧ (∀ tasks taskId t, mapGet tasks taskId = some t →
      trDeleteTask tasks taskId = .ok (t, mapDelete tasks taskId)) := by
  refine ⟨?_, ?_, ?_, ?_, ?_⟩
  · intro tasks taskId
    unfold sDelete
    split
    · simp_all
    · simp_all
  · intro tasks taskId t h
    simp [sDelete, h]
  · intro tasks taskId h
    simp [sDelete, h]
  · intro tasks taskId h
    simp [trDeleteTask, h]
  · intro tasks taskId t h
    simp [trDeleteTask, h]

/-- Witness for C8 (amended) at concrete inputs: deleting a missing id
returns false in the simplified variant, and the advanced variant
returns the removed task for an existing id. -/
theorem repository_delete_contract_witness :
    eMapGet ([] : EMap) "task_9" = none
    ∧ sDelete [] "task_9" = (false, [])
    ∧ mapGet [("task_1", baseTask)] "task_1" = some baseTask
    ∧ trDeleteTask [("task_1", baseTask)] "task_1"
        = .ok (baseTask, mapDelete [("task_1", baseTask)] "task_1") :=
  ⟨rfl,
   repository_delete_contract.2.2.1 [] "task_9" rfl,
   by decide,
   repository_delete_contract.2.2.2.2 [("task_1", baseTask)] "task_1" baseTask
     (by decide)⟩

/-- Fact: `v || d` keeps a truthy string. -/
theorem jsOr_id (v d : String) (h : v ≠ "") : jsOr (some v) d = v := by
  simp [jsOr, h]

/-- Fact: `v || null` keeps an optional string that is not `some ""`. -/
theorem jsOrNullStr_id (v : Option String) (h : v ≠ some "") :
    jsOrNullStr v = v := by
  cases v with
  | none => rfl
  | some s =>
    have : s ≠ "" := fun he => h (by rw [he])
    simp [jsOrNullStr, this]

/-- Fact: `v || null` keeps an optional number that is not `some 0`. -/
theorem jsOrNullRat_id (v : Option Rat) (h : v ≠ some 0) :
    jsOrNullRat v = v := by
  cases v with
  | none => rfl
  | some x =>
    have : x ≠ 0 := fun he => h (by rw [he])
    simp [jsOrNullRat, this]

/-- Fact: `v ? _ : null` keeps an optional timestamp that is not `some 0`. -/
theorem jsTruthyNat_id (v : Option Nat) (h : v ≠ some 0) :
    jsTruthyNat v = v := by
  cases v with
  | none => rfl
  | some n =>
    have : n ≠ 0 := fun he => h (by rw [he])
    simp [jsTruthyNat, this]

/-- C9 (amended): `fromJSON ∘ toJSON` is the identity on every task in
API-canonical form (`Reachable`): trimmed non-empty title/userId,
trimmed description, non-empty assignee, priority in the entity enum,
normalized non-empty category, and none of the JS-falsy values that
`fromJSON`'s `||`-defaults collapse (zero hours, zero timestamps,
empty-string optional ids).  Tags, notes and dependencies are restored
with identical contents. -/
theorem fromJSON_toJSON_roundTrip (t : Task) (h : Reachable t) :
    fromJSON (toJSON t) = .ok t := by
  obtain ⟨h1, h2, h3, h4, h5, h6, h7, h8, h9, h10, h11, h12, h13, h14,
    h15, h16⟩ := h
  have hp : t.priority ≠ "" := by
    intro he
    rw [he] at h7
    simp [validPriorities] at h7
  unfold fromJSON
  dsimp only [toJSON]
  unfold taskNew
  rw [h1, h3, h4]
  rw [if_neg h2, if_neg h5]
  rw [jsOr_id _ _ h6, jsOr_id _ _ hp, jsOr_id _ _ h8]
  unfold validatePriorityT
  rw [if_pos h7]
  unfold normalizeCategory
  rw [if_neg h8, h9]
  rw [jsTruthyNat_id _ h10, jsOrNullRat_id _ h12, jsOrNullRat_id _ h13,
    jsOrNullStr_id _ h14, jsOrNullStr_id _ h15, jsOrNullStr_id _ h16,
    jsTruthyNat_id _ h11]

/-- Witness for C9 (amended): a concrete canonical task round-trips. -/
theorem fromJSON_toJSON_roundTrip_witness :
    Reachable { baseTask with dueDate := some 100, estimatedHours := some 2 }
    ∧ fromJSON (toJSON
        { baseTask with dueDate := some 100, estimatedHours := some 2 })
      = .ok { baseTask with dueDate := some 100, estimatedHours := some 2 } :=
  ⟨by decide, fromJSON_toJSON_roundTrip _ (by decide)⟩

/-- Frame fact for an allocated copy: the fresh reference differs from
every live reference. -/
theorem alloc_fresh_ne {α : Type} (s : Store α) (v : List α) (r : Nat)
    (h : r < s.length) : (alloc s v).2 ≠ r := by
  simp only [alloc]
  omega

/-- The allocated copy holds exactly the copied contents. -/
theorem allocCopy_contents {α : Type} (s : Store α) (v : List α) :
    readRef (alloc s v).1 (alloc s v).2 = v := by
  simp only [alloc, readRef]
  rw [List.getD_eq_getElem?_getD]
  simp

/-- Writing through the fresh reference of an allocated copy leaves
every live reference's contents unchanged. -/
theorem allocCopy_write_frame {α : Type} (s : Store α) (v w : List α)
    (r : Nat) (h : r < s.length) :
    readRef (writeRef (alloc s v).1 (alloc s v).2 w) r = readRef s r := by
  simp only [alloc, writeRef, readRef]
  rw [List.getD_eq_getElem?_getD, List.getD_eq_getElem?_getD]
  rw [List.getElem?_set_ne (by omega)]
  rw [List.getElem?_append_left h]

/-- Allocation does not disturb live references. -/
theorem alloc_preserves_read {α : Type} (s : Store α) (v : List α) (r : Nat)
    (h : r < s.length) : readRef (alloc s v).1 r = readRef s r := by
  simp only [alloc, readRef]
  rw [List.getD_eq_getElem?_getD, List.getD_eq_getElem?_getD,
    List.getElem?_append_left h]

/-- C10: the `tags`/`notes`/`dependencies` getters (and the further
copies `toJSON` makes) return a reference to a freshly allocated copy:
the returned reference is distinct from the backing reference, its
contents initially coincide with the backing array, and writing any
value through the returned reference leaves the backing array — hence
every subsequent read of the collection — unchanged. -/
theorem collection_getters_return_fresh_copies
    (ss : Store String) (sn : Store Note) (t : TaskH)
    (htags : t.tagsRef < ss.length) (hnotes : t.notesRef < sn.length)
    (hdeps : t.depsRef < ss.length) :
    ((tagsGetH ss t).2 ≠ t.tagsRef
      ∧ readRef (tagsGetH ss t).1 (tagsGetH ss t).2 = readRef ss t.tagsRef
      ∧ ∀ v, readRef (writeRef (tagsGetH ss t).1 (tagsGetH ss t).2 v)
          t.tagsRef = readRef ss t.tagsRef)
    ∧ ((notesGetH sn t).2 ≠ t.notesRef
      ∧ readRef (notesGetH sn t).1 (notesGetH sn t).2 = readRef sn t.notesRef
      ∧ ∀ v, readRef (writeRef (notesGetH sn t).1 (notesGetH sn t).2 v)
          t.notesRef = readRef sn t.notesRef)
    ∧ ((dependenciesGetH ss t).2 ≠ t.depsRef
      ∧ readRef (dependenciesGetH ss t).1 (dependenciesGetH ss t).2
          = readRef ss t.depsRef
      ∧ ∀ v, readRef (writeRef (dependenciesGetH ss t).1
          (dependenciesGetH ss t).2 v) t.depsRef = readRef ss t.depsRef)
    ∧ (∀ v, readRef (writeRef (toJSONTagsH ss t).1 (toJSONTagsH ss t).2 v)
        t.tagsRef = readRef ss t.tagsRef) := by
  refine ⟨⟨?_, ?_, fun v => ?_⟩, ⟨?_, ?_, fun v => ?_⟩,
    ⟨?_, ?_, fun v => ?_⟩, fun v => ?_⟩
  · exact alloc_fresh_ne ss _ _ htags
  · exact allocCopy_contents ss _
  · exact allocCopy_write_frame ss _ v _ htags
  · exact alloc_fresh_ne sn _ _ hnotes
  · exact allocCopy_contents sn _
  · exact allocCopy_write_frame sn _ v _ hnotes
  · exact alloc_fresh_ne ss _ _ hdeps
  · exact allocCopy_contents ss _
  · exact allocCopy_write_frame ss _ v _ hdeps
  · unfold toJSONTagsH tagsGetH
    have hlen : t.tagsRef < (alloc ss (readRef ss t.tagsRef)).1.length := by
      simp only [alloc]
      simp only [List.length_append, List.length_singleton]
      omega
    rw [allocCopy_write_frame _ _ v _ hlen]
    exact alloc_preserves_read ss _ _ htags

/-- Witness for C10 at a concrete heap: writing `["x"]` through the
reference returned by the `tags` getter leaves the backing array
unchanged. -/
theorem collection_getters_return_fresh_copies_witness :
    c1taskH.tagsRef < ([["a"], ["d"]] : Store String).length
    ∧ readRef (writeRef (tagsGetH [["a"], ["d"]] c1taskH).1
        (tagsGetH [["a"], ["d"]] c1taskH).2 ["x"]) c1taskH.tagsRef
      = readRef [["a"], ["d"]] c1taskH.tagsRef :=
  ⟨by decide,
   (collection_getters_return_fresh_copies [["a"], ["d"]] [[]] c1taskH
     (by decide) (by decide) (by decide)).1.2.2 ["x"]⟩

end TaskApp
